import Mathlib

/-!
# swarm_ros_bridge: `bridge_node.cpp`

A shallow embedding of the bridge node: the send callback `sub_cb` with its
frequency control and frame construction, the receive thread `recv_func`,
`deserialize_pub`, the teardown helpers `stop_send` / `stop_recv`, and the
sections of `main` (configuration parsing, socket initialisation, ROS
subscription, thread launch, teardown).

Conventions of the embedding.

* `ros::Time` is an exact count of nanoseconds (`Int`); the difference of two
  times is a `ros::Duration`, again a count of nanoseconds, and `toSec` is the
  exact rational number of seconds.  Floating point rounding and the 32-bit
  ranges of the fields of `ros::Time` and `ros::Duration` are not modelled.
* The global vectors of `bridge_node.hpp` (`sendTopics`, `sub_t_last`,
  `senders`, ...) are the fields of `Bridge`.  Indexing a vector out of range
  is undefined behaviour in the source and is `none` here.
* Everything the program does to the outside world (sockets, ROS
  subscriptions, threads) is recorded as a list of `Effect`s in program order.
  Console output (`std::cout`, `ROS_INFO`, ...) is not recorded.
* `ros::Time::now()` is an input of the function that reads it.
-/

namespace SwarmBridge

/-! ## Data model -/

/-- Bytes of a serialized message. -/
abbrev Byte := UInt8

/-- The type `ros::Time`: nanoseconds since the epoch. -/
abbrev Time := Int

/-- The type `ros::Duration`: a signed count of nanoseconds. -/
abbrev Duration := Int

/-- The method `ros::Duration::toSec`, without rounding. -/
def toSec (d : Duration) : ℚ := (d : ℚ) / 1000000000

/-- The struct `TopicInfo` as `main` fills it in. -/
structure TopicInfo where
  name : String
  type : String
  max_freq : Int
  ip : String
  port : Int
deriving DecidableEq, Repr

/-- What the program does to its environment, in program order. -/
inductive Effect where
  /-- Call `senders[i]->send(msg_t, zmq::send_flags::dontwait)` with the bytes of `msg_t` -/
  | send (i : Nat) (msg_t : List Byte)
  /-- Call `new zmq::socket_t(context, zmq::socket_type::pub)` -/
  | socket_pub
  /-- Call `sender->bind(url)` -/
  | bind (url : String)
  /-- Call `new zmq::socket_t(context, zmq::socket_type::sub)` -/
  | socket_sub
  /-- Call `receiver->setsockopt(ZMQ_SUBSCRIBE, zmq_topic, len)` -/
  | setsockopt_subscribe (zmq_topic : String)
  /-- Call `receiver->connect(url)` -/
  | connect (url : String)
  /-- Call `topic_subscriber(name, type, nh, i)`, a function of `bridge_node.hpp`:
  subscribes the topic with `sub_cb<T, i>` as callback -/
  | subscribe (i : Nat) (name type : String)
  /-- Call `topic_publisher(name, type, nh)`, a function of `bridge_node.hpp`:
  advertises the topic -/
  | advertise (name type : String)
  /-- Call `std::thread(&recv_func, i)` -/
  | thread (i : Nat)
  /-- Call `senders[i]->close()` -/
  | close_sender (i : Nat)
  /-- Call `topic_subs[i].shutdown()` -/
  | unsubscribe (i : Nat)
  /-- Call `receivers[i]->close()` -/
  | close_receiver (i : Nat)
  /-- Call `topic_pubs[i].shutdown()` -/
  | unadvertise (i : Nat)
deriving DecidableEq, Repr

/-- The global state of the node (the globals declared in `bridge_node.hpp`).
Socket, subscriber, publisher and thread handles are represented by the url,
topic name or index they were created with. -/
structure Bridge where
  ip_map : List (String × String) := []
  sendTopics : List TopicInfo := []
  recvTopics : List TopicInfo := []
  sub_t_last : List Time := []
  senders : List String := []
  receivers : List String := []
  topic_subs : List String := []
  topic_pubs : List String := []
  recv_thread_flags : List Bool := []
  recv_flags_last : List Bool := []
  recv_threads : List Nat := []
deriving DecidableEq, Repr

/-! ## `sub_cb` -/

/-- The part that `send_array << data_len` appends to a `zmqpp::message`:
the 64-bit value in network byte order, eight bytes. -/
def u64_part (n : Nat) : List Byte :=
  (List.range 8).map fun k => UInt8.ofNat ((n % 2 ^ 64) / 2 ^ (8 * (7 - k)) % 256)

/-- The callback `sub_cb<T, i>(msg)`.  `ser` is the ROS serializer of `T`
(`serializationLength` is the length of its output), `t_now` the value of
`ros::Time::now()`.  Returns the new state and the effects of the call. -/
def sub_cb {T : Type} (ser : T → List Byte) (i : Nat) (msg : T) (t_now : Time)
    (b : Bridge) : Option (Bridge × List Effect) :=
  match b.sub_t_last[i]?, b.sendTopics[i]? with
  | some t_last, some topic =>
    /- frequency control -/
    if toSec (t_now - t_last) * (topic.max_freq : ℚ) < 1 then
      some (b, [])
    else
      let b1 := { b with sub_t_last := b.sub_t_last.set i t_now }
      /- serialize the sending messages into send_buffer -/
      let send_buffer := ser msg
      let data_len := send_buffer.length
      /- zmq send message -/
      let send_array : List (List Byte) := [u64_part data_len, send_buffer]
      match send_array[1]?, b.senders[i]? with
      | some part1, some _ =>
        let msg_t := part1
        some (b1, [Effect.send i msg_t])
      | _, _ => none
  | _, _ => none


/-- A run of `sub_cb<T, i>` over the messages the local bus delivers to topic
`i`, each with the clock value its invocation reads.  The log pairs every
invocation's clock value with the effects of that invocation. -/
def deliver {T : Type} (ser : T → List Byte) (i : Nat) :
    List (Time × T) → Bridge → Option (Bridge × List (Time × List Effect))
  | [], b => some (b, [])
  | (t_now, msg) :: rest, b =>
    match sub_cb ser i msg t_now b with
    | none => none
    | some (b1, eff) =>
      match deliver ser i rest b1 with
      | none => none
      | some (b2, log) => some (b2, (t_now, eff) :: log)

/-- The clock values of the invocations of a log that handed a frame to the
publish endpoint. -/
def forwardedAt (log : List (Time × List Effect)) : List Time :=
  (log.filter fun e => !e.2.isEmpty).map Prod.fst

/-- The frames handed to publish endpoints in a log, in order. -/
def framesOf (log : List (Time × List Effect)) : List (List Byte) :=
  (log.map Prod.snd).flatten.filterMap fun e =>
    match e with
    | Effect.send _ f => some f
    | _ => none

/-! ## Receive side -/

/-- The function `deserialize_pub<T>(buffer_ptr, msg_size, i)`: deserializes the
first `msg_size` bytes of the buffer and publishes the message on
`topic_pubs[i]`.  `deser` is the ROS deserializer of `T`.  The result is the
publisher index and the message published. -/
def deserialize_pub {T : Type} (deser : List Byte → T) (buffer_ptr : List Byte)
    (msg_size : Nat) (i : Nat) : Nat × T :=
  (i, deser (buffer_ptr.take msg_size))

/-- The thread function `recv_func(i)`: `while (recv_thread_flags[i]) { }`.
Every statement of the loop body is commented out in the source, so an
iteration reads no socket and publishes nothing.  `fuel` bounds the number of
iterations; `none` means the loop is still running when the fuel is used up
(or that `i` is out of range).
The result is the list of messages published on the local bus, each with its
publisher index and serialized bytes. -/
def recv_func : Nat → Nat → Bridge → Option (List (Nat × List Byte))
  | 0, _, _ => none
  | fuel + 1, i, b =>
    match b.recv_thread_flags[i]? with
    | none => none
    | some true => recv_func fuel i b
    | some false => some []

/-! ## Teardown helpers -/

/-- The function `stop_send(i)`. -/
def stop_send (i : Nat) (b : Bridge) : Bridge × List Effect :=
  (b, [Effect.close_sender i, Effect.unsubscribe i])

/-- The function `stop_recv(i)`. -/
def stop_recv (i : Nat) (b : Bridge) : Bridge × List Effect :=
  ({ b with recv_thread_flags := b.recv_thread_flags.set i false },
    [Effect.close_receiver i, Effect.unadvertise i])

/-! ## `main` -/

/-- One entry of `send_topics` / `recv_topics` in the configuration. -/
structure TopicXml where
  topic_name : String
  msg_type : String
  max_freq : Int
  srcIP : String
  srcPort : Int
deriving DecidableEq, Repr

/-- The parameters `main` reads from the parameter server; `none` is a
parameter that `nh.getParam` does not find.  `IP` lists the entries of the
struct in iteration order. -/
structure Params where
  IP : Option (List (String × String))
  send_topics : Option (List TopicXml)
  recv_topics : Option (List TopicXml)
deriving DecidableEq, Repr

/-- The ZeroMQ transport as far as `main` depends on it: whether `bind` and
`connect` accept a url.  A refused url raises `zmq::error_t`, which `main`
does not catch. -/
structure Transport where
  bind : String → Bool
  connect : String → Bool

/-- The statement `ip_map[k] = v`. -/
def map_assign (m : List (String × String)) (k v : String) : List (String × String) :=
  match m.lookup k with
  | some _ => m.map fun e => if e.1 == k then (k, v) else e
  | none => m ++ [(k, v)]

/-- The expression `ip_map[k]` read as a value: `std::map::operator[]` inserts
an empty string under a key that is absent.  Returns the value and the map. -/
def map_index (m : List (String × String)) (k : String) : String × List (String × String) :=
  match m.lookup k with
  | some v => (v, m)
  | none => ("", m ++ [(k, "")])

/-- The loop over `ip_xml` that fills `ip_map`. -/
def load_ip_map : List (String × String) → List (String × String) → List (String × String)
  | [], m => m
  | (host_name, host_ip) :: rest, m => load_ip_map rest (map_assign m host_name host_ip)

/-- The loop over `send_topics_xml`; `srcPorts` is the set used for the
duplicate check.  `Except.error 3` is `return 3`. -/
def load_send_topics : List TopicXml → List Int → Bridge → Except Int Bridge
  | [], _, b => Except.ok b
  | x :: rest, srcPorts, b =>
    let r := map_index b.ip_map x.srcIP
    let topic : TopicInfo :=
      { name := x.topic_name, type := x.msg_type, max_freq := x.max_freq, ip := r.1,
        port := x.srcPort }
    let b1 := { b with ip_map := r.2, sendTopics := b.sendTopics ++ [topic] }
    if x.srcPort ∈ srcPorts then Except.error 3
    else load_send_topics rest (x.srcPort :: srcPorts) b1

/-- The loop over `recv_topics_xml`. -/
def load_recv_topics : List TopicXml → Bridge → Bridge
  | [], b => b
  | x :: rest, b =>
    let r := map_index b.ip_map x.srcIP
    let topic : TopicInfo :=
      { name := x.topic_name, type := x.msg_type, max_freq := x.max_freq, ip := r.1,
        port := x.srcPort }
    load_recv_topics rest { b with ip_map := r.2, recvTopics := b.recvTopics ++ [topic] }

/-- The section "Parse configuration file" of `main`: the registry build.
`SUB_MAX` is the macro of `bridge_node.hpp`.  `Except.error c` is `return c`.
The section has no effect on sockets, subscriptions or threads. -/
def parse_configuration (SUB_MAX : Int) (p : Params) (b : Bridge) : Except Int Bridge :=
  match p.IP with
  | none => Except.error 1
  | some ip_xml =>
    let send_topics_xml := p.send_topics.getD []
    let recv_topics_xml := p.recv_topics.getD []
    let len_send : Int := send_topics_xml.length
    if len_send > SUB_MAX then Except.error 2
    else
      let b1 := { b with ip_map := load_ip_map ip_xml b.ip_map }
      match load_send_topics send_topics_xml [] b1 with
      | Except.error c => Except.error c
      | Except.ok b2 => Except.ok (load_recv_topics recv_topics_xml b2)

/-- The url of a topic, `"tcp://" + ip + ":" + std::to_string(port)`. -/
def url_of (t : TopicInfo) : String :=
  "tcp://" ++ t.ip ++ ":" ++ toString t.port

/-- The loop that creates and binds the send sockets.  The state is `none`
when `bind` raises. -/
def open_senders (net : Transport) : List TopicInfo → Bridge → Option Bridge × List Effect
  | [], b => (some b, [])
  | t :: rest, b =>
    let url := url_of t
    if net.bind url then
      let r := open_senders net rest { b with senders := b.senders ++ [url] }
      (r.1, Effect.socket_pub :: Effect.bind url :: r.2)
    else (none, [Effect.socket_pub, Effect.bind url])

/-- The loop that creates and connects the receive sockets.  The state is
`none` when `connect` raises. -/
def open_receivers (net : Transport) : List TopicInfo → Bridge → Option Bridge × List Effect
  | [], b => (some b, [])
  | t :: rest, b =>
    let url := url_of t
    let pre := [Effect.socket_sub, Effect.setsockopt_subscribe "", Effect.connect url]
    if net.connect url then
      let r := open_receivers net rest { b with receivers := b.receivers ++ [url] }
      (r.1, pre ++ r.2)
    else (none, pre)

/-- The loop that subscribes the send topics, from index `i` on; `now k` is
the value `ros::Time::now()` returns in iteration `k`. -/
def subscribe_topics (now : Nat → Time) :
    Nat → List TopicInfo → Bridge → Bridge × List Effect
  | _, [], b => (b, [])
  | i, t :: rest, b =>
    let b1 := { b with sub_t_last := b.sub_t_last ++ [now i],
                       topic_subs := b.topic_subs ++ [t.name] }
    let r := subscribe_topics now (i + 1) rest b1
    (r.1, Effect.subscribe i t.name t.type :: r.2)

/-- The loop that advertises the receive topics. -/
def advertise_topics : List TopicInfo → Bridge → Bridge × List Effect
  | [], b => (b, [])
  | t :: rest, b =>
    let r := advertise_topics rest { b with topic_pubs := b.topic_pubs ++ [t.name] }
    (r.1, Effect.advertise t.name t.type :: r.2)

/-- The loop that launches the receive threads, from index `i` on, `n` more. -/
def launch_threads : Nat → Nat → Bridge → Bridge × List Effect
  | _, 0, b => (b, [])
  | i, n + 1, b =>
    let b1 := { b with recv_thread_flags := b.recv_thread_flags ++ [true],
                       recv_flags_last := b.recv_flags_last ++ [false],
                       recv_threads := b.recv_threads ++ [i] }
    let r := launch_threads (i + 1) n b1
    (r.1, Effect.thread i :: r.2)

/-- How the part of `main` before `ros::spin()` ends. -/
inductive Outcome where
  /-- Return from `main` with an exit code -/
  | exit (code : Int)
  /-- An uncaught `zmq::error_t` -/
  | crash
  /-- The node reached `ros::spin()` in this state -/
  | spinning (b : Bridge)
deriving DecidableEq, Repr

/-- The function `main` up to `ros::spin()`, started from the empty globals. -/
def main_startup (net : Transport) (SUB_MAX : Int) (now : Nat → Time) (p : Params) :
    Outcome × List Effect :=
  match parse_configuration SUB_MAX p {} with
  | Except.error c => (Outcome.exit c, [])
  | Except.ok b0 =>
    match open_senders net b0.sendTopics b0 with
    | (none, tr1) => (Outcome.crash, tr1)
    | (some b1, tr1) =>
      match open_receivers net b1.recvTopics b1 with
      | (none, tr2) => (Outcome.crash, tr1 ++ tr2)
      | (some b2, tr2) =>
        let r3 := subscribe_topics now 0 b2.sendTopics b2
        let r4 := advertise_topics r3.1.recvTopics r3.1
        let r5 := launch_threads 0 r4.1.recvTopics.length r4.1
        (Outcome.spinning r5.1, tr1 ++ tr2 ++ r3.2 ++ r4.2 ++ r5.2)

/-- The loop `for i < len_send: stop_send(i)`, from index `i` on, `n` more. -/
def stop_all_send : Nat → Nat → Bridge → Bridge × List Effect
  | _, 0, b => (b, [])
  | i, n + 1, b =>
    let r := stop_send i b
    let r1 := stop_all_send (i + 1) n r.1
    (r1.1, r.2 ++ r1.2)

/-- The loop `for i < len_recv: stop_recv(i)`, from index `i` on, `n` more. -/
def stop_all_recv : Nat → Nat → Bridge → Bridge × List Effect
  | _, 0, b => (b, [])
  | i, n + 1, b =>
    let r := stop_recv i b
    let r1 := stop_all_recv (i + 1) n r.1
    (r1.1, r.2 ++ r1.2)

/-- The section "stop send/receive" of `main`, run after `ros::spin()` returns. -/
def main_teardown (b : Bridge) : Bridge × List Effect :=
  let r := stop_all_send 0 b.sendTopics.length b
  let r1 := stop_all_recv 0 r.1.recvTopics.length r.1
  (r1.1, r.2 ++ r1.2)

/-- Whether an effect creates a socket. -/
def Effect.opensSocket : Effect → Bool
  | Effect.socket_pub => true
  | Effect.socket_sub => true
  | _ => false

/-! ## Fixtures -/

/-- A bridge with one send topic `/odom` of maximum frequency `r`, whose rate
state is `t0`, as `main` leaves it when the configuration has that topic. -/
def odomBridge (r : Int) (t0 : Time) : Bridge :=
  { ip_map := [("self", "127.0.0.1")]
    sendTopics := [{ name := "/odom", type := "nav_msgs/Odometry", max_freq := r,
                     ip := "127.0.0.1", port := 3001 }]
    sub_t_last := [t0]
    senders := ["tcp://127.0.0.1:3001"]
    topic_subs := ["/odom"] }

/-- The serializer of a message type whose values are their own wire bytes. -/
def rawSer : List Byte → List Byte := fun m => m

/-- The `TopicInfo` of `/odom` in `odomBridge r t0`. -/
def odomTopic (r : Int) : TopicInfo :=
  { name := "/odom", type := "nav_msgs/Odometry", max_freq := r, ip := "127.0.0.1",
    port := 3001 }

/-- A bridge with one receive topic `/cmd` whose thread is enabled. -/
def cmdBridge : Bridge :=
  { recvTopics := [{ name := "/cmd", type := "std_msgs/String", max_freq := 10,
                     ip := "127.0.0.1", port := 3002 }]
    receivers := ["tcp://127.0.0.1:3002"]
    topic_pubs := ["/cmd"]
    recv_thread_flags := [true]
    recv_flags_last := [false]
    recv_threads := [0] }

/-- The `TopicInfo` that the configuration loops build from an entry when the
host table is `m`: the ip is the value `m` holds under `srcIP`, or the empty
string that `operator[]` inserts when `srcIP` is not a key. -/
def topic_of (m : List (String × String)) (x : TopicXml) : TopicInfo :=
  { name := x.topic_name, type := x.msg_type, max_freq := x.max_freq,
    ip := (m.lookup x.srcIP).getD "", port := x.srcPort }

/-- A configuration with the host `self`, two send topics on the ports
`sendPorts` and two receive topics on the ports `recvPorts`. -/
def demoParams (sendPorts recvPorts : Int × Int) : Params :=
  { IP := some [("self", "127.0.0.1")]
    send_topics := some
      [{ topic_name := "/odom", msg_type := "nav_msgs/Odometry", max_freq := 10,
         srcIP := "self", srcPort := sendPorts.1 },
       { topic_name := "/imu", msg_type := "sensor_msgs/Imu", max_freq := 50,
         srcIP := "self", srcPort := sendPorts.2 }]
    recv_topics := some
      [{ topic_name := "/cmd", msg_type := "std_msgs/String", max_freq := 10,
         srcIP := "self", srcPort := recvPorts.1 },
       { topic_name := "/goal", msg_type := "std_msgs/String", max_freq := 10,
         srcIP := "self", srcPort := recvPorts.2 }] }

/-- A configuration whose only send topic names the host `ghost`, which is not
a key of the host table. -/
def ghostParams : Params :=
  { IP := some [("self", "127.0.0.1")]
    send_topics := some
      [{ topic_name := "/odom", msg_type := "nav_msgs/Odometry", max_freq := 10,
         srcIP := "ghost", srcPort := 3001 }]
    recv_topics := some [] }

/-- A configuration with the host `self` and the single send topic `/odom` of
maximum frequency `r`. -/
def odomParams (r : Int) : Params :=
  { IP := some [("self", "127.0.0.1")]
    send_topics := some
      [{ topic_name := "/odom", msg_type := "nav_msgs/Odometry", max_freq := r,
         srcIP := "self", srcPort := 3001 }]
    recv_topics := none }

/-- A transport that accepts every url. -/
def openNet : Transport := { bind := fun _ => true, connect := fun _ => true }

/-- The frequency control of `sub_cb` on its own: the clock values, out of `ts`,
of the invocations that get past the check for a topic of maximum frequency
`r` whose rate state is `t_last`.  A device of the proofs; `deliver_freq_control`
relates it to `sub_cb`. -/
def freq_control (r : Int) : Time → List Time → List Time
  | _, [] => []
  | t_last, t :: ts =>
    if (t - t_last) * r < 1000000000 then freq_control r t_last ts
    else t :: freq_control r t ts

/-- Fifty messages delivered at intervals of 10 ms, the first at `t_first`;
`msgs k` is message number `k`. -/
def evenly_spaced {T : Type} (t_first : Time) (msgs : Nat → T) : List (Time × T) :=
  (List.range 50).map fun (k : Nat) => (t_first + 10000000 * (k : Int), msgs k)

/-- Whether the first occurrence of effect `x` in a trace comes before the
first occurrence of effect `y`, both occurring. -/
def precedes (x y : Effect) (tr : List Effect) : Bool :=
  decide (x ∈ tr) && decide (y ∈ tr) && decide (tr.indexOf x < tr.indexOf y)

/-! ## Lemmas on `sub_cb` -/

theorem toSec_mul_lt_one_iff (d r : Int) :
    toSec d * (r : ℚ) < 1 ↔ d * r < 1000000000 := by
  unfold toSec
  rw [div_mul_eq_mul_div, div_lt_one (by norm_num)]
  exact_mod_cast Iff.rfl

theorem sub_cb_drop {T : Type} (ser : T → List Byte) (i : Nat) (msg : T) (t_now : Time)
    (b : Bridge) (t_last : Time) (topic : TopicInfo)
    (h1 : b.sub_t_last[i]? = some t_last) (h2 : b.sendTopics[i]? = some topic)
    (h : (t_now - t_last) * topic.max_freq < 1000000000) :
    sub_cb ser i msg t_now b = some (b, []) := by
  have h' := (toSec_mul_lt_one_iff (t_now - t_last) topic.max_freq).2 h
  simp only [sub_cb, h1, h2]
  rw [if_pos h']

theorem sub_cb_pass {T : Type} (ser : T → List Byte) (i : Nat) (msg : T) (t_now : Time)
    (b : Bridge) (t_last : Time) (topic : TopicInfo)
    (h1 : b.sub_t_last[i]? = some t_last) (h2 : b.sendTopics[i]? = some topic)
    (h3 : i < b.senders.length)
    (h : ¬ (t_now - t_last) * topic.max_freq < 1000000000) :
    sub_cb ser i msg t_now b =
      some ({ b with sub_t_last := b.sub_t_last.set i t_now }, [Effect.send i (ser msg)]) := by
  have h' : ¬ toSec (t_now - t_last) * (topic.max_freq : ℚ) < 1 :=
    fun hh => h ((toSec_mul_lt_one_iff (t_now - t_last) topic.max_freq).1 hh)
  obtain ⟨u, hu⟩ : ∃ u, b.senders[i]? = some u :=
    ⟨b.senders[i], List.getElem?_eq_getElem h3⟩
  simp only [sub_cb, h1, h2]
  rw [if_neg h']
  simp [hu]

/-! ## Claims -/

/-- C9: for a send topic with `max_freq = r > 0`, one invocation of `sub_cb` at
time `t_now` with `dt = t_now - t_last` sends nothing and leaves the state (so
`sub_t_last[i]`) unchanged when `dt * r < 1`; otherwise it sets `sub_t_last[i]`
to `t_now`, leaves the rest of the state alone and hands exactly one frame to
`senders[i]`. -/
theorem sub_cb_step {T : Type} (ser : T → List Byte) (i : Nat) (msg : T) (t_now : Time)
    (b : Bridge) (t_last : Time) (topic : TopicInfo)
    (h1 : b.sub_t_last[i]? = some t_last) (h2 : b.sendTopics[i]? = some topic)
    (h3 : i < b.senders.length) (_hr : 0 < topic.max_freq) :
    (toSec (t_now - t_last) * (topic.max_freq : ℚ) < 1 →
        sub_cb ser i msg t_now b = some (b, [])) ∧
    (¬ toSec (t_now - t_last) * (topic.max_freq : ℚ) < 1 →
        ∃ frame, sub_cb ser i msg t_now b =
            some ({ b with sub_t_last := b.sub_t_last.set i t_now }, [Effect.send i frame]) ∧
          (b.sub_t_last.set i t_now)[i]? = some t_now) := by
  constructor
  · intro h
    exact sub_cb_drop ser i msg t_now b t_last topic h1 h2
      ((toSec_mul_lt_one_iff _ _).1 h)
  · intro h
    refine ⟨ser msg, sub_cb_pass ser i msg t_now b t_last topic h1 h2 h3
      (fun hh => h ((toSec_mul_lt_one_iff _ _).2 hh)), ?_⟩
    have hi : i < b.sub_t_last.length := by
      rcases List.getElem?_eq_some.1 h1 with ⟨hlt, _⟩
      exact hlt
    simp [hi]

/-- Witness of C9: `/odom` at 10 Hz, last sent at 0 s; a message at 0.05 s is
dropped and a message at 0.1 s is forwarded. -/
theorem sub_cb_step_witness :
    sub_cb rawSer 0 [1, 2, 3] 50000000 (odomBridge 10 0) = some (odomBridge 10 0, []) ∧
    ∃ frame, sub_cb rawSer 0 [1, 2, 3] 100000000 (odomBridge 10 0) =
        some ({ odomBridge 10 0 with
                sub_t_last := (odomBridge 10 0).sub_t_last.set 0 100000000 },
              [Effect.send 0 frame]) ∧
      ((odomBridge 10 0).sub_t_last.set 0 100000000)[0]? = some 100000000 :=
  ⟨(sub_cb_step rawSer 0 [1, 2, 3] 50000000 (odomBridge 10 0) 0 (odomTopic 10)
      rfl rfl (by decide) (by decide)).1
      ((toSec_mul_lt_one_iff _ _).2 (by decide)),
   (sub_cb_step rawSer 0 [1, 2, 3] 100000000 (odomBridge 10 0) 0 (odomTopic 10)
      rfl rfl (by decide) (by decide)).2
      (fun h => absurd ((toSec_mul_lt_one_iff _ _).1 h) (by decide))⟩

/-- C2, counterexample: `/odom` configured with `max_freq = 0`, last sent at
0 s, a message delivered 5 s later: `sub_cb` takes the drop branch and hands no
frame to the publish endpoint. -/
theorem sub_cb_zero_freq_counterexample :
    sub_cb rawSer 0 [1, 2, 3] 5000000000 (odomBridge 0 0) = some (odomBridge 0 0, []) ∧
    ¬ ∃ b1 frame, sub_cb rawSer 0 [1, 2, 3] 5000000000 (odomBridge 0 0) =
        some (b1, [Effect.send 0 frame]) := by
  have h : sub_cb rawSer 0 [1, 2, 3] 5000000000 (odomBridge 0 0) = some (odomBridge 0 0, []) :=
    sub_cb_drop rawSer 0 [1, 2, 3] 5000000000 (odomBridge 0 0) 0 (odomTopic 0) rfl rfl
      (by decide)
  refine ⟨h, ?_⟩
  rintro ⟨b1, frame, h1⟩
  rw [h] at h1
  simp at h1

/-- C2, amended: for a send topic configured with `max_freq = 0`, `sub_cb`
forwards no message: for every last-sent time and every current time the
invocation takes the drop branch, hands no frame to the publish endpoint and
leaves the state unchanged. -/
theorem sub_cb_zero_freq_drops {T : Type} (ser : T → List Byte) (i : Nat) (msg : T)
    (t_now : Time) (b : Bridge) (t_last : Time) (topic : TopicInfo)
    (h1 : b.sub_t_last[i]? = some t_last) (h2 : b.sendTopics[i]? = some topic)
    (h0 : topic.max_freq = 0) :
    toSec (t_now - t_last) * (topic.max_freq : ℚ) < 1 ∧
    sub_cb ser i msg t_now b = some (b, []) := by
  have h : (t_now - t_last) * topic.max_freq < 1000000000 := by
    rw [h0]; simp
  exact ⟨(toSec_mul_lt_one_iff _ _).2 h, sub_cb_drop ser i msg t_now b t_last topic h1 h2 h⟩

/-- Witness of C2 amended: `/odom` with `max_freq = 0`, a message one hour
after the last-sent time is dropped. -/
theorem sub_cb_zero_freq_drops_witness :
    toSec (3600000000000 - 0) * (((odomTopic 0).max_freq : Int) : ℚ) < 1 ∧
    sub_cb rawSer 0 [7] 3600000000000 (odomBridge 0 0) = some (odomBridge 0 0, []) :=
  sub_cb_zero_freq_drops rawSer 0 [7] 3600000000000 (odomBridge 0 0) 0 (odomTopic 0)
    rfl rfl rfl

/-- C3, counterexample: `/odom` at 10 Hz, a three-byte message forwarded 0.1 s
after the last-sent time: the bytes handed to `senders[0]` are the three
payload bytes, not the eight length bytes followed by the payload. -/
theorem sub_cb_frame_counterexample :
    sub_cb rawSer 0 [1, 2, 3] 100000000 (odomBridge 10 0) =
      some ({ odomBridge 10 0 with sub_t_last := [100000000] },
            [Effect.send 0 [1, 2, 3]]) ∧
    ¬ ∃ b1, sub_cb rawSer 0 [1, 2, 3] 100000000 (odomBridge 10 0) =
        some (b1, [Effect.send 0 (u64_part (rawSer [1, 2, 3]).length ++ rawSer [1, 2, 3])]) := by
  have h := sub_cb_pass rawSer 0 [1, 2, 3] 100000000 (odomBridge 10 0) 0 (odomTopic 10)
    rfl rfl (by decide) (by decide)
  refine ⟨h, ?_⟩
  rintro ⟨b1, h1⟩
  rw [h] at h1
  have h2 := congrArg (fun r => r.map fun q => q.2.map fun e =>
    match e with
    | Effect.send _ f => f.length
    | _ => 0) h1
  simp [rawSer, u64_part] at h2

/-- C3, amended: for every message that `sub_cb` forwards, the byte sequence
handed to the publish endpoint (the `zmq::message_t` passed to
`senders[i]->send`) is exactly the serialized payload, part 1 of `send_array`;
the eight length bytes, part 0 of `send_array`, are not part of it. -/
theorem sub_cb_frame_is_payload {T : Type} (ser : T → List Byte) (i : Nat) (msg : T)
    (t_now : Time) (b b1 : Bridge) (eff : List Effect)
    (h : sub_cb ser i msg t_now b = some (b1, eff)) (j : Nat) (frame : List Byte)
    (hmem : Effect.send j frame ∈ eff) :
    j = i ∧ frame = ser msg ∧ frame ≠ u64_part (ser msg).length ++ ser msg := by
  have key : eff = [] ∨ eff = [Effect.send i (ser msg)] := by
    unfold sub_cb at h
    split at h
    · split at h
      · simp only [Option.some.injEq, Prod.mk.injEq] at h
        exact Or.inl h.2.symm
      · cases hs : b.senders[i]? with
        | none => simp [hs] at h
        | some u =>
          simp [hs] at h
          exact Or.inr h.2.symm
    · simp at h
  rcases key with rfl | rfl
  · simp at hmem
  · simp only [List.mem_singleton, Effect.send.injEq] at hmem
    obtain ⟨rfl, rfl⟩ := hmem
    refine ⟨rfl, rfl, ?_⟩
    intro hc
    have := congrArg List.length hc
    simp [u64_part] at this

/-- Witness of C3 amended: the frame of the three-byte message on `/odom`. -/
theorem sub_cb_frame_is_payload_witness :
    sub_cb rawSer 0 [1, 2, 3] 100000000 (odomBridge 10 0) =
      some ({ odomBridge 10 0 with sub_t_last := [100000000] },
            [Effect.send 0 [1, 2, 3]]) ∧
    (0 = 0 ∧ ([1, 2, 3] : List Byte) = rawSer [1, 2, 3] ∧
      ([1, 2, 3] : List Byte) ≠ u64_part (rawSer [1, 2, 3]).length ++ rawSer [1, 2, 3]) :=
  have h := sub_cb_pass rawSer 0 [1, 2, 3] 100000000 (odomBridge 10 0) 0 (odomTopic 10)
    rfl rfl (by decide) (by decide)
  ⟨h, sub_cb_frame_is_payload rawSer 0 [1, 2, 3] 100000000 (odomBridge 10 0) _ _ h 0
    [1, 2, 3] (List.mem_singleton.2 rfl)⟩

/-- C8, counterexample: in the effect trace of `stop_send(0)` the unsubscribe
event does not precede the close event; the trace is close, then unsubscribe. -/
theorem stop_send_order_counterexample :
    (stop_send 0 (odomBridge 10 0)).2 = [Effect.close_sender 0, Effect.unsubscribe 0] ∧
    precedes (Effect.unsubscribe 0) (Effect.close_sender 0)
      (stop_send 0 (odomBridge 10 0)).2 = false := by
  constructor
  · rfl
  · decide

/-- C8, amended: for every send topic `i`, `stop_send(i)` first closes the
publish endpoint and only then unregisters the local-bus subscription: its
effect trace is the close event followed by the unsubscribe event. -/
theorem stop_send_closes_then_unsubscribes (i : Nat) (b : Bridge) :
    (stop_send i b).2 = [Effect.close_sender i, Effect.unsubscribe i] ∧
    precedes (Effect.close_sender i) (Effect.unsubscribe i) (stop_send i b).2 = true := by
  constructor
  · rfl
  · simp [precedes, stop_send, List.indexOf_cons]

/-! ## Lemmas on the configuration loops -/

theorem map_index_fst (m : List (String × String)) (k : String) :
    (map_index m k).1 = (m.lookup k).getD "" := by
  unfold map_index
  cases m.lookup k <;> rfl

theorem map_index_lookup (m : List (String × String)) (k k1 : String) :
    ((map_index m k).2.lookup k1).getD "" = (m.lookup k1).getD "" := by
  unfold map_index
  cases h : m.lookup k with
  | some v => rfl
  | none =>
    simp only [List.lookup_append]
    cases h1 : m.lookup k1 with
    | some v => rfl
    | none =>
      simp only [Option.none_or, List.lookup_cons, List.lookup_nil]
      cases k1 == k <;> rfl

theorem topic_of_map_index (m : List (String × String)) (k : String) :
    topic_of (map_index m k).2 = topic_of m := by
  funext x
  simp only [topic_of, map_index_lookup]

theorem load_send_topics_ok (xs : List TopicXml) :
    ∀ (seen : List Int) (b : Bridge), (∀ x ∈ xs, x.srcPort ∉ seen) →
      (xs.map TopicXml.srcPort).Nodup →
      ∃ m, topic_of m = topic_of b.ip_map ∧
        load_send_topics xs seen b =
          Except.ok { b with ip_map := m,
                             sendTopics := b.sendTopics ++ xs.map (topic_of b.ip_map) } := by
  induction xs with
  | nil =>
    intro seen b _ _
    exact ⟨b.ip_map, rfl, by simp [load_send_topics]⟩
  | cons x rest ih =>
    intro seen b hseen hnd
    have hx : x.srcPort ∉ seen := hseen x (List.mem_cons_self _ _)
    rw [List.map_cons, List.nodup_cons] at hnd
    have hrest : ∀ y ∈ rest, y.srcPort ∉ x.srcPort :: seen := by
      intro y hy hmem
      rcases List.mem_cons.1 hmem with h | h
      · exact hnd.1 (h ▸ List.mem_map_of_mem TopicXml.srcPort hy)
      · exact hseen y (List.mem_cons_of_mem _ hy) h
    obtain ⟨m, hm, hload⟩ := ih (x.srcPort :: seen)
      { b with ip_map := (map_index b.ip_map x.srcIP).2,
               sendTopics := b.sendTopics ++
                 [{ name := x.topic_name, type := x.msg_type, max_freq := x.max_freq,
                    ip := (map_index b.ip_map x.srcIP).1, port := x.srcPort }] }
      hrest hnd.2
    refine ⟨m, ?_, ?_⟩
    · rw [hm]; exact topic_of_map_index _ _
    · simp only [load_send_topics, if_neg hx]
      rw [hload]
      simp [topic_of_map_index, topic_of, map_index_fst]

theorem load_send_topics_dup (xs : List TopicXml) :
    ∀ (seen : List Int) (b : Bridge),
      ¬ ((∀ x ∈ xs, x.srcPort ∉ seen) ∧ (xs.map TopicXml.srcPort).Nodup) →
      load_send_topics xs seen b = Except.error 3 := by
  induction xs with
  | nil =>
    intro seen b h
    exact absurd ⟨fun _ hx => absurd hx (List.not_mem_nil _), List.nodup_nil⟩ h
  | cons x rest ih =>
    intro seen b h
    by_cases hx : x.srcPort ∈ seen
    · simp only [load_send_topics, if_pos hx]
    · simp only [load_send_topics, if_neg hx]
      apply ih
      rintro ⟨h1, h2⟩
      apply h
      refine ⟨?_, ?_⟩
      · intro y hy
        rcases List.mem_cons.1 hy with rfl | hy
        · exact hx
        · exact fun hmem => h1 y hy (List.mem_cons_of_mem _ hmem)
      · rw [List.map_cons, List.nodup_cons]
        refine ⟨?_, h2⟩
        intro hmem
        obtain ⟨y, hy, hyx⟩ := List.mem_map.1 hmem
        exact h1 y hy (hyx ▸ List.mem_cons_self _ _)

theorem load_recv_topics_eq (xs : List TopicXml) :
    ∀ b : Bridge, ∃ m, topic_of m = topic_of b.ip_map ∧
      load_recv_topics xs b =
        { b with ip_map := m, recvTopics := b.recvTopics ++ xs.map (topic_of b.ip_map) } := by
  induction xs with
  | nil =>
    intro b
    exact ⟨b.ip_map, rfl, by simp [load_recv_topics]⟩
  | cons x rest ih =>
    intro b
    obtain ⟨m, hm, hload⟩ := ih
      { b with ip_map := (map_index b.ip_map x.srcIP).2,
               recvTopics := b.recvTopics ++
                 [{ name := x.topic_name, type := x.msg_type, max_freq := x.max_freq,
                    ip := (map_index b.ip_map x.srcIP).1, port := x.srcPort }] }
    refine ⟨m, ?_, ?_⟩
    · rw [hm]; exact topic_of_map_index _ _
    · simp only [load_recv_topics]
      rw [hload]
      simp [topic_of_map_index, topic_of, map_index_fst]

/-- The registry build succeeds, with every entry turned into a `TopicInfo`,
when the host table is present, the send-topic count is within `SUB_MAX` and
the send ports are pairwise distinct. -/
theorem parse_configuration_ok (SUB_MAX : Int) (p : Params) (ip_xml : List (String × String))
    (hIP : p.IP = some ip_xml)
    (hlen : (((p.send_topics.getD []).length : Nat) : Int) ≤ SUB_MAX)
    (hnd : ((p.send_topics.getD []).map TopicXml.srcPort).Nodup) :
    ∃ m, parse_configuration SUB_MAX p {} =
      Except.ok
        { ip_map := m
          sendTopics := (p.send_topics.getD []).map (topic_of (load_ip_map ip_xml []))
          recvTopics := (p.recv_topics.getD []).map (topic_of (load_ip_map ip_xml [])) } := by
  obtain ⟨m1, hm1, h1⟩ := load_send_topics_ok (p.send_topics.getD []) []
    { ip_map := load_ip_map ip_xml [] } (fun _ _ h => absurd h (List.not_mem_nil _)) hnd
  obtain ⟨m2, _, h2⟩ := load_recv_topics_eq (p.recv_topics.getD [])
    { ip_map := m1
      sendTopics := (p.send_topics.getD []).map (topic_of (load_ip_map ip_xml [])) }
  refine ⟨m2, ?_⟩
  simp only [parse_configuration, hIP, if_neg (not_lt.2 hlen)]
  simp only [List.nil_append] at h1
  rw [h1]
  simp only [h2, hm1, List.nil_append]

/-- The registry build returns 3 when the host table is present, the
send-topic count is within `SUB_MAX` and two send topics share a port. -/
theorem parse_configuration_dup (SUB_MAX : Int) (p : Params) (ip_xml : List (String × String))
    (hIP : p.IP = some ip_xml)
    (hlen : (((p.send_topics.getD []).length : Nat) : Int) ≤ SUB_MAX)
    (hnd : ¬ ((p.send_topics.getD []).map TopicXml.srcPort).Nodup) :
    parse_configuration SUB_MAX p {} = Except.error 3 := by
  have h := load_send_topics_dup (p.send_topics.getD []) []
    { ip_map := load_ip_map ip_xml [] } (fun hh => hnd hh.2)
  simp only [parse_configuration, hIP, if_neg (not_lt.2 hlen)]
  rw [h]

/-! ## Lemmas on runs of `sub_cb` -/

theorem freq_control_gaps (r : Int) (ts : List Time) :
    ∀ t_last : Time,
      (freq_control r t_last ts).Pairwise (fun a c => 1000000000 ≤ (c - a) * r) ∧
      ∀ f ∈ freq_control r t_last ts, 1000000000 ≤ (f - t_last) * r := by
  induction ts with
  | nil =>
    intro t_last
    simp [freq_control]
  | cons t ts ih =>
    intro t_last
    by_cases h : (t - t_last) * r < 1000000000
    · simp only [freq_control, if_pos h]
      exact ih t_last
    · simp only [freq_control, if_neg h]
      obtain ⟨hp, hf⟩ := ih t
      have ht : 1000000000 ≤ (t - t_last) * r := not_lt.1 h
      refine ⟨List.pairwise_cons.2 ⟨hf, hp⟩, ?_⟩
      intro f hmem
      rcases List.mem_cons.1 hmem with rfl | hmem
      · exact ht
      · have h1 := hf f hmem
        have h2 : (f - t_last) * r = (f - t) * r + (t - t_last) * r := by ring
        rw [h2]
        linarith

theorem freq_control_shift (r : Int) (c : Int) (ts : List Time) :
    ∀ t_last : Time,
      freq_control r (t_last + c) (ts.map fun t => t + c) =
        (freq_control r t_last ts).map fun t => t + c := by
  induction ts with
  | nil => intro t_last; rfl
  | cons t ts ih =>
    intro t_last
    have e : t + c - (t_last + c) = t - t_last := by ring
    by_cases h : (t - t_last) * r < 1000000000
    · simp only [List.map_cons, freq_control, e, if_pos h]
      exact ih t_last
    · simp only [List.map_cons, freq_control, e, if_neg h]
      rw [ih t]

theorem freq_control_dropped_head (r : Int) (t_last : Time) (pre rest : List Time)
    (h : ∀ t ∈ pre, (t - t_last) * r < 1000000000) :
    freq_control r t_last (pre ++ rest) = freq_control r t_last rest := by
  induction pre with
  | nil => rfl
  | cons t pre ih =>
    have ht := h t (List.mem_cons_self _ _)
    simp only [List.cons_append, freq_control, if_pos ht]
    exact ih fun u hu => h u (List.mem_cons_of_mem _ hu)

theorem deliver_dropped_head {T : Type} (ser : T → List Byte) (i : Nat) (b : Bridge)
    (t_last : Time) (topic : TopicInfo)
    (h1 : b.sub_t_last[i]? = some t_last) (h2 : b.sendTopics[i]? = some topic)
    (pre rest : List (Time × T))
    (h : ∀ e ∈ pre, (e.1 - t_last) * topic.max_freq < 1000000000) :
    deliver ser i (pre ++ rest) b =
      (deliver ser i rest b).map fun q => (q.1, pre.map (fun e => (e.1, [])) ++ q.2) := by
  induction pre with
  | nil =>
    simp only [List.nil_append, List.map_nil]
    cases deliver ser i rest b <;> rfl
  | cons e pre ih =>
    obtain ⟨t, msg⟩ := e
    have ht := h (t, msg) (List.mem_cons_self _ _)
    have hd := sub_cb_drop ser i msg t b t_last topic h1 h2 ht
    have e : deliver ser i ((t, msg) :: pre ++ rest) b =
        match deliver ser i (pre ++ rest) b with
        | none => none
        | some (b2, log) => some (b2, (t, []) :: log) := by
      simp only [List.cons_append, deliver, hd]
      rfl
    rw [e, ih fun u hu => h u (List.mem_cons_of_mem _ hu)]
    cases deliver ser i rest b <;> rfl

theorem forwardedAt_cons_drop (t : Time) (log : List (Time × List Effect)) :
    forwardedAt ((t, []) :: log) = forwardedAt log := by
  simp [forwardedAt]

theorem forwardedAt_cons_send (t : Time) (i : Nat) (f : List Byte)
    (log : List (Time × List Effect)) :
    forwardedAt ((t, [Effect.send i f]) :: log) = t :: forwardedAt log := by
  simp [forwardedAt]

theorem framesOf_cons_drop (t : Time) (log : List (Time × List Effect)) :
    framesOf ((t, []) :: log) = framesOf log := by
  simp [framesOf]

theorem framesOf_cons_send (t : Time) (i : Nat) (f : List Byte)
    (log : List (Time × List Effect)) :
    framesOf ((t, [Effect.send i f]) :: log) = f :: framesOf log := by
  simp [framesOf]

/-- A run of `sub_cb<T, i>` on a valid topic index returns, forwards exactly at
the clock values that `freq_control` lets through, and hands one frame to the publish
endpoint per forwarded message. -/
theorem deliver_freq_control {T : Type} (ser : T → List Byte) (i : Nat) (topic : TopicInfo)
    (ds : List (Time × T)) :
    ∀ (b : Bridge) (t_last : Time), b.sub_t_last[i]? = some t_last →
      b.sendTopics[i]? = some topic → i < b.senders.length →
      ∃ b1 log, deliver ser i ds b = some (b1, log) ∧
        forwardedAt log = freq_control topic.max_freq t_last (ds.map Prod.fst) ∧
        (framesOf log).length = (forwardedAt log).length := by
  induction ds with
  | nil =>
    intro b t_last _ _ _
    exact ⟨b, [], rfl, rfl, rfl⟩
  | cons e ds ih =>
    intro b t_last h1 h2 h3
    obtain ⟨t, msg⟩ := e
    by_cases h : (t - t_last) * topic.max_freq < 1000000000
    · obtain ⟨b1, log, hd, hf, hl⟩ := ih b t_last h1 h2 h3
      refine ⟨b1, (t, []) :: log, ?_, ?_, ?_⟩
      · simp only [deliver, sub_cb_drop ser i msg t b t_last topic h1 h2 h, hd]
      · simp only [forwardedAt_cons_drop, List.map_cons, freq_control, if_pos h, hf]
      · simp only [forwardedAt_cons_drop, framesOf_cons_drop, hl]
    · have hi : i < b.sub_t_last.length := (List.getElem?_eq_some.1 h1).1
      obtain ⟨b1, log, hd, hf, hl⟩ := ih { b with sub_t_last := b.sub_t_last.set i t } t
        (by simp [hi]) h2 h3
      refine ⟨b1, (t, [Effect.send i (ser msg)]) :: log, ?_, ?_, ?_⟩
      · simp only [deliver, sub_cb_pass ser i msg t b t_last topic h1 h2 h3 h, hd]
      · simp only [forwardedAt_cons_send, List.map_cons, freq_control, if_neg h, hf]
      · simp only [forwardedAt_cons_send, framesOf_cons_send, List.length_cons, hl]

theorem toSec_sub (a c : Time) : toSec (c - a) = toSec c - toSec a := by
  unfold toSec
  push_cast
  ring

theorem one_div_le_toSec_iff (d r : Int) (hr : 0 < r) :
    1 / (r : ℚ) ≤ toSec d ↔ 1000000000 ≤ d * r := by
  have hr1 : (0 : ℚ) < (r : ℚ) := by exact_mod_cast hr
  rw [div_le_iff₀ hr1, ← not_lt, toSec_mul_lt_one_iff, not_lt]

/-! ## Claims on the rate limit and the registry build -/

/-- C1: for a send topic with `max_freq = r > 0`, every initial last-sent time
and every sequence of `sub_cb` invocations, the run returns, and any two
messages it forwards have timestamps at least `1/r` seconds apart, so no
window `[w, w + 1/r)` contains two forwarded messages. -/
theorem sub_cb_rate_limit {T : Type} (ser : T → List Byte) (i : Nat) (b : Bridge)
    (t_last : Time) (topic : TopicInfo)
    (h1 : b.sub_t_last[i]? = some t_last) (h2 : b.sendTopics[i]? = some topic)
    (h3 : i < b.senders.length) (hr : 0 < topic.max_freq) (ds : List (Time × T)) :
    ∃ b1 log, deliver ser i ds b = some (b1, log) ∧
      (forwardedAt log).Pairwise (fun a c => 1 / (topic.max_freq : ℚ) ≤ toSec (c - a)) ∧
      ∀ w : ℚ, ((forwardedAt log).filter fun f =>
          decide (w ≤ toSec f ∧ toSec f < w + 1 / (topic.max_freq : ℚ))).length ≤ 1 := by
  obtain ⟨b1, log, hd, hf, _⟩ := deliver_freq_control ser i topic ds b t_last h1 h2 h3
  have hp : (forwardedAt log).Pairwise
      (fun a c => 1 / (topic.max_freq : ℚ) ≤ toSec (c - a)) := by
    rw [hf]
    exact (freq_control_gaps topic.max_freq (ds.map Prod.fst) t_last).1.imp
      fun h => (one_div_le_toSec_iff _ _ hr).2 h
  refine ⟨b1, log, hd, hp, ?_⟩
  intro w
  have hs := hp.sublist (List.filter_sublist (forwardedAt log)
    (p := fun f => decide (w ≤ toSec f ∧ toSec f < w + 1 / (topic.max_freq : ℚ))))
  have hall : ∀ f ∈ (forwardedAt log).filter (fun f =>
      decide (w ≤ toSec f ∧ toSec f < w + 1 / (topic.max_freq : ℚ))),
      w ≤ toSec f ∧ toSec f < w + 1 / (topic.max_freq : ℚ) := by
    intro f hmem
    simpa using (List.mem_filter.1 hmem).2
  generalize (forwardedAt log).filter (fun f =>
      decide (w ≤ toSec f ∧ toSec f < w + 1 / (topic.max_freq : ℚ))) = l at hs hall
  match l, hs, hall with
  | [], _, _ => simp
  | [_], _, _ => simp
  | a :: c :: _, hs, hall =>
    exfalso
    have hac := (List.pairwise_cons.1 hs).1 c (List.mem_cons_self _ _)
    have ha := hall a (List.mem_cons_self _ _)
    have hc := hall c (List.mem_cons_of_mem _ (List.mem_cons_self _ _))
    rw [toSec_sub] at hac
    linarith [ha.1, hc.2]

/-- Witness of C1: `/odom` at 10 Hz with last-sent time 0 s and messages at
0.05 s, 0.1 s, 0.15 s, 0.2 s. -/
theorem sub_cb_rate_limit_witness :
    ∃ b1 log, deliver rawSer 0
        [(50000000, [1]), (100000000, [2]), (150000000, [3]), (200000000, [4])]
        (odomBridge 10 0) = some (b1, log) ∧
      (forwardedAt log).Pairwise
        (fun a c => 1 / (((odomTopic 10).max_freq : Int) : ℚ) ≤ toSec (c - a)) ∧
      ∀ w : ℚ, ((forwardedAt log).filter fun f =>
          decide (w ≤ toSec f ∧
            toSec f < w + 1 / (((odomTopic 10).max_freq : Int) : ℚ))).length ≤ 1 :=
  sub_cb_rate_limit rawSer 0 (odomBridge 10 0) 0 (odomTopic 10) rfl rfl (by decide)
    (by decide) _

theorem main_startup_of_error (net : Transport) (SUB_MAX : Int) (now : Nat → Time)
    (p : Params) (c : Int) (h : parse_configuration SUB_MAX p {} = Except.error c) :
    main_startup net SUB_MAX now p = (Outcome.exit c, []) := by
  simp only [main_startup, h]

/-- C5: with the host table present and the send-topic count within `SUB_MAX`,
the registry build of `main` rejects every configuration in which two send
topics share a `srcPort`: `main` returns 3 with an empty effect trace, so no
endpoint has been opened.  When the send ports are pairwise distinct the
registry build accepts the configuration whatever the receive topics are, two
of them sharing a `srcPort` included, and keeps every receive topic. -/
theorem registry_send_ports_unique (net : Transport) (SUB_MAX : Int) (now : Nat → Time)
    (p : Params) (ip_xml : List (String × String)) (hIP : p.IP = some ip_xml)
    (hlen : (((p.send_topics.getD []).length : Nat) : Int) ≤ SUB_MAX) :
    (¬ ((p.send_topics.getD []).map TopicXml.srcPort).Nodup →
        parse_configuration SUB_MAX p {} = Except.error 3 ∧
        main_startup net SUB_MAX now p = (Outcome.exit 3, [])) ∧
    (((p.send_topics.getD []).map TopicXml.srcPort).Nodup →
        ∃ b, parse_configuration SUB_MAX p {} = Except.ok b ∧
          b.recvTopics.map TopicInfo.port =
            (p.recv_topics.getD []).map TopicXml.srcPort) := by
  constructor
  · intro hnd
    have h := parse_configuration_dup SUB_MAX p ip_xml hIP hlen hnd
    exact ⟨h, main_startup_of_error net SUB_MAX now p 3 h⟩
  · intro hnd
    obtain ⟨m, h⟩ := parse_configuration_ok SUB_MAX p ip_xml hIP hlen hnd
    refine ⟨_, h, ?_⟩
    simp [List.map_map, Function.comp_def, topic_of]

/-- Witness of C5: send ports {5001, 5001} are rejected with exit code 3 and no
effect; send ports {5001, 5002} with receive ports {6001, 6001} are accepted. -/
theorem registry_send_ports_unique_witness :
    (parse_configuration 50 (demoParams (5001, 5001) (6001, 6002)) {} = Except.error 3 ∧
      main_startup openNet 50 (fun _ => 0) (demoParams (5001, 5001) (6001, 6002)) =
        (Outcome.exit 3, [])) ∧
    ∃ b, parse_configuration 50 (demoParams (5001, 5002) (6001, 6001)) {} = Except.ok b ∧
      b.recvTopics.map TopicInfo.port =
        ((demoParams (5001, 5002) (6001, 6001)).recv_topics.getD []).map TopicXml.srcPort :=
  ⟨(registry_send_ports_unique openNet 50 (fun _ => 0) (demoParams (5001, 5001) (6001, 6002))
      [("self", "127.0.0.1")] rfl (by decide)).1 (by decide),
   (registry_send_ports_unique openNet 50 (fun _ => 0) (demoParams (5001, 5002) (6001, 6001))
      [("self", "127.0.0.1")] rfl (by decide)).2 (by decide)⟩

/-! ## Lemmas on `main` -/

theorem map_assign_lookup_none (m : List (String × String)) (k v k1 : String)
    (hk : k ≠ k1) (hm : m.lookup k1 = none) : (map_assign m k v).lookup k1 = none := by
  rw [List.lookup_eq_none_iff] at hm ⊢
  have hk1 : (k1 != k) = true := by simpa using fun h : k1 = k => hk h.symm
  unfold map_assign
  cases m.lookup k with
  | none =>
    intro q hq
    rcases List.mem_append.1 hq with hq | hq
    · exact hm q hq
    · rw [List.mem_singleton] at hq
      rw [hq]
      exact hk1
  | some _ =>
    intro q hq
    obtain ⟨e, he, rfl⟩ := List.mem_map.1 hq
    by_cases hc : (e.1 == k) = true
    · rw [if_pos hc]
      exact hk1
    · rw [if_neg hc]
      exact hm e he

theorem load_ip_map_lookup_none (xs : List (String × String)) (k1 : String)
    (hx : ∀ e ∈ xs, e.1 ≠ k1) :
    ∀ m : List (String × String), m.lookup k1 = none →
      (load_ip_map xs m).lookup k1 = none := by
  induction xs with
  | nil => intro m hm; exact hm
  | cons e xs ih =>
    intro m hm
    obtain ⟨host_name, host_ip⟩ := e
    simp only [load_ip_map]
    exact ih (fun u hu => hx u (List.mem_cons_of_mem _ hu)) _
      (map_assign_lookup_none m host_name host_ip k1 (hx _ (List.mem_cons_self _ _)) hm)

theorem open_senders_state (net : Transport) (ts : List TopicInfo) :
    ∀ (b b1 : Bridge), (open_senders net ts b).1 = some b1 →
      b1 = { b with senders := b.senders ++ ts.map url_of } := by
  induction ts with
  | nil =>
    intro b b1 h
    simp only [open_senders, Option.some.injEq] at h
    simp [← h]
  | cons t ts ih =>
    intro b b1 h
    by_cases hb : net.bind (url_of t) = true
    · simp only [open_senders, if_pos hb] at h
      rw [ih _ b1 h]
      simp
    · simp [open_senders, hb] at h

theorem open_senders_opens (net : Transport) (t : TopicInfo) (ts : List TopicInfo)
    (b : Bridge) : Effect.socket_pub ∈ (open_senders net (t :: ts) b).2 := by
  by_cases hb : net.bind (url_of t) = true
  · simp [open_senders, hb]
  · simp [open_senders, hb]

theorem open_receivers_state (net : Transport) (ts : List TopicInfo) :
    ∀ (b b1 : Bridge), (open_receivers net ts b).1 = some b1 →
      b1 = { b with receivers := b.receivers ++ ts.map url_of } := by
  induction ts with
  | nil =>
    intro b b1 h
    simp only [open_receivers, Option.some.injEq] at h
    simp [← h]
  | cons t ts ih =>
    intro b b1 h
    by_cases hb : net.connect (url_of t) = true
    · simp only [open_receivers, if_pos hb] at h
      rw [ih _ b1 h]
      simp
    · simp [open_receivers, hb] at h

theorem open_receivers_opens (net : Transport) (t : TopicInfo) (ts : List TopicInfo)
    (b : Bridge) : Effect.socket_sub ∈ (open_receivers net (t :: ts) b).2 := by
  by_cases hb : net.connect (url_of t) = true
  · simp [open_receivers, hb]
  · simp [open_receivers, hb]

theorem subscribe_topics_state (now : Nat → Time) (ts : List TopicInfo) :
    ∀ (i : Nat) (b : Bridge), (subscribe_topics now i ts b).1 =
      { b with sub_t_last := b.sub_t_last ++ (List.range' i ts.length).map now,
               topic_subs := b.topic_subs ++ ts.map TopicInfo.name } := by
  induction ts with
  | nil => intro i b; simp [subscribe_topics]
  | cons t ts ih =>
    intro i b
    simp only [subscribe_topics, ih]
    simp [List.range'_succ]

theorem advertise_topics_state (ts : List TopicInfo) :
    ∀ b : Bridge, (advertise_topics ts b).1 =
      { b with topic_pubs := b.topic_pubs ++ ts.map TopicInfo.name } := by
  induction ts with
  | nil => intro b; simp [advertise_topics]
  | cons t ts ih =>
    intro b
    simp only [advertise_topics, ih]
    simp

theorem launch_threads_state (n : Nat) :
    ∀ (i : Nat) (b : Bridge), (launch_threads i n b).1 =
      { b with recv_thread_flags := b.recv_thread_flags ++ List.replicate n true,
               recv_flags_last := b.recv_flags_last ++ List.replicate n false,
               recv_threads := b.recv_threads ++ List.range' i n } := by
  induction n with
  | zero => intro i b; simp [launch_threads]
  | succ n ih =>
    intro i b
    simp only [launch_threads, ih]
    simp [List.replicate_succ, List.range'_succ]

/-- Once the registry build has succeeded with at least one topic, `main`
creates a socket. -/
theorem main_startup_opens (net : Transport) (SUB_MAX : Int) (now : Nat → Time)
    (p : Params) (b0 : Bridge) (h : parse_configuration SUB_MAX p {} = Except.ok b0)
    (hne : b0.sendTopics ≠ [] ∨ b0.recvTopics ≠ []) :
    ∃ e ∈ (main_startup net SUB_MAX now p).2, e.opensSocket = true := by
  simp only [main_startup, h]
  cases hs : b0.sendTopics with
  | cons t ts =>
    have ho := open_senders_opens net t ts b0
    refine ⟨Effect.socket_pub, ?_, rfl⟩
    rcases hq : open_senders net (t :: ts) b0 with ⟨_ | b1, tr1⟩
    · rw [hq] at ho
      exact ho
    · rw [hq] at ho
      simp only
      rcases open_receivers net b1.recvTopics b1 with ⟨_ | b2, tr2⟩
      · exact List.mem_append_left _ ho
      · simp only [List.append_assoc]
        exact List.mem_append_left _ ho
  | nil =>
    have hr : b0.recvTopics ≠ [] := by
      rcases hne with h1 | h1
      · exact absurd hs h1
      · exact h1
    obtain ⟨t, ts, hts⟩ := List.exists_cons_of_ne_nil hr
    simp only [open_senders]
    have ho := open_receivers_opens net t ts b0
    refine ⟨Effect.socket_sub, ?_, rfl⟩
    rw [hts]
    rcases hq : open_receivers net (t :: ts) b0 with ⟨_ | b2, tr2⟩
    · rw [hq] at ho
      simpa using ho
    · rw [hq] at ho
      simp only [List.nil_append, List.append_assoc]
      exact List.mem_append_left _ ho


theorem parse_configuration_inv (SUB_MAX : Int) (p : Params) (b0 : Bridge)
    (h : parse_configuration SUB_MAX p {} = Except.ok b0) :
    b0.sub_t_last = [] ∧ b0.senders = [] := by
  cases hIP : p.IP with
  | none => simp [parse_configuration, hIP] at h
  | some ip_xml =>
    by_cases hlen : (((p.send_topics.getD []).length : Nat) : Int) ≤ SUB_MAX
    · by_cases hnd : ((p.send_topics.getD []).map TopicXml.srcPort).Nodup
      · obtain ⟨m, hm⟩ := parse_configuration_ok SUB_MAX p ip_xml hIP hlen hnd
        rw [hm] at h
        cases h
        exact ⟨rfl, rfl⟩
      · rw [parse_configuration_dup SUB_MAX p ip_xml hIP hlen hnd] at h
        cases h
    · simp [parse_configuration, hIP, not_le.1 hlen] at h

/-- When `main` reaches `ros::spin()`, the rate state of send topic `k` is the
clock value read in iteration `k` of the subscription loop, and every send
topic has its socket. -/
theorem main_startup_spinning (net : Transport) (SUB_MAX : Int) (now : Nat → Time)
    (p : Params) (b : Bridge)
    (h : (main_startup net SUB_MAX now p).1 = Outcome.spinning b) :
    b.sub_t_last = (List.range' 0 b.sendTopics.length).map now ∧
    b.senders.length = b.sendTopics.length := by
  unfold main_startup at h
  cases hp : parse_configuration SUB_MAX p {} with
  | error c => simp [hp] at h
  | ok b0 =>
    obtain ⟨hsub0, hsend0⟩ := parse_configuration_inv SUB_MAX p b0 hp
    simp only [hp] at h
    rcases hs : open_senders net b0.sendTopics b0 with ⟨_ | b1, tr1⟩
    · simp [hs] at h
    · have e1 := open_senders_state net b0.sendTopics b0 b1 (by rw [hs])
      simp only [hs] at h
      rcases hq : open_receivers net b1.recvTopics b1 with ⟨_ | b2, tr2⟩
      · simp [hq] at h
      · have e2 := open_receivers_state net b1.recvTopics b1 b2 (by rw [hq])
        simp only [hq, Outcome.spinning.injEq] at h
        rw [launch_threads_state, advertise_topics_state, subscribe_topics_state] at h
        subst h
        subst e2
        subst e1
        simp [hsub0, hsend0]

/-! ## Claims on `main` -/

/-- C6, counterexample: the only send topic names the host `ghost`, which is
not a key of the host table {`self`}.  The registry build succeeds, giving the
topic the empty string as ip, and whatever the transport does the first effect
of `main` is the creation of a socket. -/
theorem unresolved_host_counterexample :
    ghostParams.IP = some [("self", "127.0.0.1")] ∧
    (ghostParams.send_topics.getD []).map TopicXml.srcIP = ["ghost"] ∧
    parse_configuration 50 ghostParams {} =
      Except.ok
        { ip_map := [("self", "127.0.0.1"), ("ghost", "")]
          sendTopics := [{ name := "/odom", type := "nav_msgs/Odometry", max_freq := 10,
                           ip := "", port := 3001 }] } ∧
    ∀ net : Transport,
      (main_startup net 50 (fun _ => 0) ghostParams).2.head? = some Effect.socket_pub := by
  have hp : parse_configuration 50 ghostParams {} =
      Except.ok
        { ip_map := [("self", "127.0.0.1"), ("ghost", "")]
          sendTopics := [{ name := "/odom", type := "nav_msgs/Odometry", max_freq := 10,
                           ip := "", port := 3001 }] } := by
    rfl
  refine ⟨rfl, rfl, hp, ?_⟩
  intro net
  simp only [main_startup, hp, open_senders]
  cases net.bind (url_of { name := "/odom", type := "nav_msgs/Odometry", max_freq := 10,
                           ip := "", port := 3001 }) <;> simp [open_receivers]

/-- C6, amended: the registry build of `main` does not check host names.  With
the host table present, the send-topic count within `SUB_MAX` and the send
ports pairwise distinct, the build succeeds whatever hosts the topics name; a
send or receive topic whose `srcIP` is not a key of the host table gets the
empty string as its ip, and `main`, when there is a topic at all, goes on to
create a socket. -/
theorem registry_unresolved_host (net : Transport) (SUB_MAX : Int) (now : Nat → Time)
    (p : Params) (ip_xml : List (String × String)) (hIP : p.IP = some ip_xml)
    (hlen : (((p.send_topics.getD []).length : Nat) : Int) ≤ SUB_MAX)
    (hnd : ((p.send_topics.getD []).map TopicXml.srcPort).Nodup) :
    ∃ b, parse_configuration SUB_MAX p {} = Except.ok b ∧
      b.sendTopics = (p.send_topics.getD []).map (topic_of (load_ip_map ip_xml [])) ∧
      b.recvTopics = (p.recv_topics.getD []).map (topic_of (load_ip_map ip_xml [])) ∧
      (∀ x ∈ p.send_topics.getD [] ++ p.recv_topics.getD [],
        (∀ e ∈ ip_xml, e.1 ≠ x.srcIP) → (topic_of (load_ip_map ip_xml []) x).ip = "") ∧
      (p.send_topics.getD [] ++ p.recv_topics.getD [] ≠ [] →
        ∃ e ∈ (main_startup net SUB_MAX now p).2, e.opensSocket = true) := by
  obtain ⟨m, hm⟩ := parse_configuration_ok SUB_MAX p ip_xml hIP hlen hnd
  refine ⟨_, hm, rfl, rfl, ?_, ?_⟩
  · intro x _ hx
    simp only [topic_of]
    rw [load_ip_map_lookup_none ip_xml x.srcIP hx [] rfl]
    rfl
  · intro hne
    apply main_startup_opens net SUB_MAX now p _ hm
    simp only [ne_eq, List.map_eq_nil_iff]
    by_contra hc
    rw [not_or, not_not, not_not] at hc
    exact hne (by rw [hc.1, hc.2]; rfl)

/-- Witness of C6 amended: the configuration whose send topic names `ghost`. -/
theorem registry_unresolved_host_witness :
    ∃ b, parse_configuration 50 ghostParams {} = Except.ok b ∧
      b.sendTopics =
        (ghostParams.send_topics.getD []).map
          (topic_of (load_ip_map [("self", "127.0.0.1")] [])) ∧
      b.recvTopics =
        (ghostParams.recv_topics.getD []).map
          (topic_of (load_ip_map [("self", "127.0.0.1")] [])) ∧
      (∀ x ∈ ghostParams.send_topics.getD [] ++ ghostParams.recv_topics.getD [],
        (∀ e ∈ [("self", "127.0.0.1")], e.1 ≠ x.srcIP) →
          (topic_of (load_ip_map [("self", "127.0.0.1")] []) x).ip = "") ∧
      (ghostParams.send_topics.getD [] ++ ghostParams.recv_topics.getD [] ≠ [] →
        ∃ e ∈ (main_startup openNet 50 (fun _ => 0) ghostParams).2, e.opensSocket = true) :=
  registry_unresolved_host openNet 50 (fun _ => 0) ghostParams [("self", "127.0.0.1")]
    rfl (by decide) (by decide)

/-- C10: when `main` reaches `ros::spin()`, the rate state of send topic `i` is
the clock value `now i` read when its subscription is registered.  For a topic
with `max_freq = r > 0`, the messages delivered first, at times `t` with
`(t - now i) * r < 1`, are all dropped with the state unchanged, although
nothing has been forwarded yet, and the first message delivered at a time `t`
with `(t - now i) * r >= 1` is the first one forwarded. -/
theorem rate_state_initialised_at_subscription {T : Type} (ser : T → List Byte)
    (net : Transport) (SUB_MAX : Int) (now : Nat → Time) (p : Params) (b : Bridge)
    (hrun : (main_startup net SUB_MAX now p).1 = Outcome.spinning b)
    (i : Nat) (topic : TopicInfo) (htopic : b.sendTopics[i]? = some topic)
    (_hr : 0 < topic.max_freq)
    (pre : List (Time × T)) (t : Time) (msg : T) (post : List (Time × T))
    (hpre : ∀ e ∈ pre, toSec (e.1 - now i) * (topic.max_freq : ℚ) < 1)
    (ht : ¬ toSec (t - now i) * (topic.max_freq : ℚ) < 1) :
    b.sub_t_last[i]? = some (now i) ∧
    deliver ser i pre b = some (b, pre.map fun e => (e.1, [])) ∧
    ∃ b1 log, deliver ser i (pre ++ (t, msg) :: post) b =
      some (b1, pre.map (fun e => (e.1, [])) ++ (t, [Effect.send i (ser msg)]) :: log) := by
  obtain ⟨hsub, hlen⟩ := main_startup_spinning net SUB_MAX now p b hrun
  have hi : i < b.sendTopics.length := (List.getElem?_eq_some.1 htopic).1
  have h1 : b.sub_t_last[i]? = some (now i) := by
    rw [hsub]
    simp [hi, List.getElem?_range']
  have h3 : i < b.senders.length := by rw [hlen]; exact hi
  have hpre1 : ∀ e ∈ pre, (e.1 - now i) * topic.max_freq < 1000000000 :=
    fun e he => (toSec_mul_lt_one_iff _ _).1 (hpre e he)
  have ht1 : ¬ (t - now i) * topic.max_freq < 1000000000 :=
    fun hh => ht ((toSec_mul_lt_one_iff _ _).2 hh)
  refine ⟨h1, ?_, ?_⟩
  · have e := deliver_dropped_head ser i b (now i) topic h1 htopic pre [] hpre1
    simpa [deliver] using e
  · have hib : i < b.sub_t_last.length := (List.getElem?_eq_some.1 h1).1
    obtain ⟨b1, log, hd, _, _⟩ := deliver_freq_control ser i topic post
      { b with sub_t_last := b.sub_t_last.set i t } t (by simp [hib]) htopic h3
    refine ⟨b1, log, ?_⟩
    rw [deliver_dropped_head ser i b (now i) topic h1 htopic pre _ hpre1]
    simp only [deliver, sub_cb_pass ser i msg t b (now i) topic h1 htopic h3 ht1, hd]
    rfl

/-- Witness of C10: `/odom` at 10 Hz subscribed at 7 s; messages at 7.02 s and
7.09 s are dropped, the message at 7.1 s is the first one forwarded. -/
theorem rate_state_initialised_at_subscription_witness :
    (odomBridge 10 7000000000).sub_t_last[0]? = some 7000000000 ∧
    deliver rawSer 0 [(7020000000, [1]), (7090000000, [2])] (odomBridge 10 7000000000) =
      some (odomBridge 10 7000000000,
        [(7020000000, [1]), (7090000000, [2])].map fun e => (e.1, [])) ∧
    ∃ b1 log, deliver rawSer 0
        ([(7020000000, [1]), (7090000000, [2])] ++
          (7100000000, [3]) :: [(7150000000, [4]), (7200000000, [5])])
        (odomBridge 10 7000000000) =
      some (b1, [(7020000000, [1]), (7090000000, [2])].map (fun e => (e.1, [])) ++
        (7100000000, [Effect.send 0 (rawSer [3])]) :: log) :=
  rate_state_initialised_at_subscription rawSer openNet 50 (fun _ => 7000000000)
    (odomParams 10) (odomBridge 10 7000000000) rfl 0 (odomTopic 10) rfl (by decide)
    [(7020000000, [1]), (7090000000, [2])] 7100000000 [3]
    [(7150000000, [4]), (7200000000, [5])]
    (by
      intro e he
      rw [toSec_mul_lt_one_iff]
      simp only [List.mem_cons, List.mem_singleton, List.not_mem_nil, or_false] at he
      rcases he with rfl | rfl <;> decide)
    (fun h => absurd ((toSec_mul_lt_one_iff _ _).1 h) (by decide))

/-- C4, failing input: the payload `[1, 2, 3]` on `/odom`.  The send side hands
the frame `[1, 2, 3]` to the publish endpoint; the receive thread of an enabled
receive topic is still in its loop after any number of iterations and has
published nothing, and `recv_func` never publishes anything for any state. -/
theorem recv_func_publishes_nothing :
    sub_cb rawSer 0 [1, 2, 3] 100000000 (odomBridge 10 0) =
      some ({ odomBridge 10 0 with sub_t_last := [100000000] },
            [Effect.send 0 [1, 2, 3]]) ∧
    (∀ fuel, recv_func fuel 0 cmdBridge = none) ∧
    ∀ fuel i b, recv_func fuel i b = none ∨ recv_func fuel i b = some [] := by
  refine ⟨sub_cb_pass rawSer 0 [1, 2, 3] 100000000 (odomBridge 10 0) 0 (odomTopic 10)
    rfl rfl (by decide) (by decide), ?_, ?_⟩
  · intro fuel
    induction fuel with
    | zero => rfl
    | succ n ih => simpa [recv_func, cmdBridge] using ih
  · intro fuel i b
    induction fuel with
    | zero => exact Or.inl rfl
    | succ n ih =>
      unfold recv_func
      rcases hf : b.recv_thread_flags[i]? with _ | _ | _
      · exact Or.inl rfl
      · exact Or.inr rfl
      · exact ih

/-! ## The scenario of fifty messages at 10 ms intervals -/

theorem freq_control_drop (r : Int) (t_last t : Int) (ts : List Int)
    (h : (t - t_last) * r < 1000000000) :
    freq_control r t_last (t :: ts) = freq_control r t_last ts := by
  simp only [freq_control, if_pos h]

theorem freq_control_pass (r : Int) (t_last t : Int) (ts : List Int)
    (h : 1000000000 ≤ (t - t_last) * r) :
    freq_control r t_last (t :: ts) = t :: freq_control r t ts := by
  simp only [freq_control, if_neg (not_lt.2 h)]

theorem range_fifty : List.range 50 =
    [0, 1, 2, 3, 4, 5, 6, 7, 8, 9, 10, 11, 12, 13, 14, 15, 16, 17, 18, 19, 20, 21, 22, 23, 24,
     25, 26, 27, 28, 29, 30, 31, 32, 33, 34, 35, 36, 37, 38, 39, 40, 41, 42, 43, 44, 45, 46,
     47, 48, 49] := by
  decide

theorem freq_control_evenly_spaced (d : Int) (hd : 0 ≤ d) :
    (freq_control 10 0 ((List.range 50).map fun (k : Nat) => d + 10000000 * (k : Int))).length =
      if d < 10000000 then 4 else 5 := by
  have hcases : d < 10000000 ∨ (10000000 ≤ d ∧ d < 20000000) ∨
      (20000000 ≤ d ∧ d < 30000000) ∨ (30000000 ≤ d ∧ d < 40000000) ∨
      (40000000 ≤ d ∧ d < 50000000) ∨ (50000000 ≤ d ∧ d < 60000000) ∨
      (60000000 ≤ d ∧ d < 70000000) ∨ (70000000 ≤ d ∧ d < 80000000) ∨
      (80000000 ≤ d ∧ d < 90000000) ∨ (90000000 ≤ d ∧ d < 100000000) ∨
      100000000 ≤ d := by omega
  rw [range_fifty]
  simp only [List.map_cons, List.map_nil, Nat.cast_ofNat, Nat.cast_zero, Nat.cast_one]
  rcases hcases with h | h | h | h | h | h | h | h | h | h | h
  all_goals
    simp (disch := omega) only [freq_control_drop, freq_control_pass]
    simp (disch := omega) only [freq_control, List.length_cons, List.length_nil, if_pos, if_neg]


/-- The number of frames a run over fifty evenly spaced messages hands to the
publish endpoint, for a topic of maximum frequency 10 whose rate state is `t0`
and a first message delivered `d >= 0` nanoseconds after `t0`. -/
theorem deliver_evenly_spaced {T : Type} (ser : T → List Byte) (i : Nat) (b : Bridge)
    (t0 : Time) (topic : TopicInfo)
    (h1 : b.sub_t_last[i]? = some t0) (h2 : b.sendTopics[i]? = some topic)
    (h3 : i < b.senders.length) (hr : topic.max_freq = 10) (d : Int) (hd : 0 ≤ d)
    (msgs : Nat → T) :
    ∃ b1 log, deliver ser i (evenly_spaced (t0 + d) msgs) b = some (b1, log) ∧
      (framesOf log).length = (if d < 10000000 then 4 else 5) ∧
      (forwardedAt log).Pairwise (fun a c => 100000000 ≤ c - a) := by
  obtain ⟨b1, log, hdel, hf, hl⟩ :=
    deliver_freq_control ser i topic (evenly_spaced (t0 + d) msgs) b t0 h1 h2 h3
  refine ⟨b1, log, hdel, ?_, ?_⟩
  · rw [hl, hf, hr]
    have e1 : (evenly_spaced (t0 + d) msgs).map Prod.fst =
        ((List.range 50).map fun (k : Nat) => d + 10000000 * (k : Int)).map
          fun t => t + t0 := by
      simp only [evenly_spaced, List.map_map]
      apply List.map_congr_left
      intro k _
      simp only [Function.comp_apply]
      ring
    have e2 := freq_control_shift 10 t0
      ((List.range 50).map fun (k : Nat) => d + 10000000 * (k : Int)) 0
    rw [zero_add] at e2
    rw [e1, e2, List.length_map]
    exact freq_control_evenly_spaced d hd
  · rw [hf, hr]
    refine (freq_control_gaps 10 _ t0).1.imp ?_
    intro a c hac
    have h4 : (1000000000 : Int) ≤ ((c : Int) - (a : Int)) * 10 := hac
    show (100000000 : Int) ≤ (c : Int) - (a : Int)
    omega

/-- C7, counterexample: `/odom` at 10 Hz with the rate state initialised at
0 s and fifty messages at 10 ms intervals.  With the first message at 10 ms
five frames are forwarded, with the first message at 0 ms four; not ten. -/
theorem fifty_messages_counterexample :
    (∃ b1 log, deliver rawSer 0 (evenly_spaced (0 + 10000000) fun _ => [1])
        (odomBridge 10 0) = some (b1, log) ∧
      (framesOf log).length = 5 ∧ (framesOf log).length ≠ 10) ∧
    (∃ b1 log, deliver rawSer 0 (evenly_spaced (0 + 0) fun _ => [1])
        (odomBridge 10 0) = some (b1, log) ∧
      (framesOf log).length = 4 ∧ (framesOf log).length ≠ 10) := by
  constructor
  · obtain ⟨b1, log, hdel, hn, _⟩ := deliver_evenly_spaced rawSer 0 (odomBridge 10 0) 0
      (odomTopic 10) rfl rfl (by decide) rfl 10000000 (by decide) (fun _ => [1])
    rw [if_neg (by decide)] at hn
    exact ⟨b1, log, hdel, hn, by rw [hn]; decide⟩
  · obtain ⟨b1, log, hdel, hn, _⟩ := deliver_evenly_spaced rawSer 0 (odomBridge 10 0) 0
      (odomTopic 10) rfl rfl (by decide) rfl 0 (by decide) (fun _ => [1])
    rw [if_pos (by decide)] at hn
    exact ⟨b1, log, hdel, hn, by rw [hn]; decide⟩

/-- C7, amended: for a send topic with `max_freq = 10` whose rate state is the
subscription time `t0`, when fifty messages are delivered to `sub_cb` at
evenly spaced intervals of 10 ms, the first of them `d >= 0` after `t0`,
exactly 5 frames are forwarded when `d` is at least 10 ms and exactly 4 when
`d` is less than 10 ms; forwarded messages are at least 100 ms apart. -/
theorem fifty_messages_forwarded {T : Type} (ser : T → List Byte) (i : Nat) (b : Bridge)
    (t0 : Time) (topic : TopicInfo)
    (h1 : b.sub_t_last[i]? = some t0) (h2 : b.sendTopics[i]? = some topic)
    (h3 : i < b.senders.length) (hr : topic.max_freq = 10) (d : Int) (hd : 0 ≤ d)
    (msgs : Nat → T) :
    ∃ b1 log, deliver ser i (evenly_spaced (t0 + d) msgs) b = some (b1, log) ∧
      (framesOf log).length = (if d < 10000000 then 4 else 5) ∧
      (forwardedAt log).Pairwise (fun a c => 100000000 ≤ c - a) :=
  deliver_evenly_spaced ser i b t0 topic h1 h2 h3 hr d hd msgs

/-- Witness of C7 amended: `/odom` at 10 Hz subscribed at 7 s, first message
10 ms later. -/
theorem fifty_messages_forwarded_witness :
    ∃ b1 log, deliver rawSer 0 (evenly_spaced (7000000000 + 10000000) fun k => [UInt8.ofNat k])
        (odomBridge 10 7000000000) = some (b1, log) ∧
      (framesOf log).length = (if (10000000 : Int) < 10000000 then 4 else 5) ∧
      (forwardedAt log).Pairwise (fun a c => 100000000 ≤ c - a) :=
  fifty_messages_forwarded rawSer 0 (odomBridge 10 7000000000) 7000000000 (odomTopic 10)
    rfl rfl (by decide) rfl 10000000 (by decide) fun k => [UInt8.ofNat k]

end SwarmBridge
